import Mathlib

/-!
Verification development for the romaneio_manual repository (src/rom.py).

The Python source is shallowly embedded: strings are `String`/`List Char`,
pandas cells are `Option String` (`none` models NaN), numeric values are `ℚ`
(Python floats only ever hold short decimal literals in this program, which
`ℚ` represents exactly), and the Streamlit session state is an explicit
record.  Each definition mirrors one function or code fragment of rom.py and
is named after it where Lean allows.
-/

set_option maxRecDepth 4000

namespace Rom

/-! ### Character-level helpers

`rom.py` line 40 removes Unicode combining marks after NFKD decomposition.
For the precomposed Latin letters that occur in this program's data
(Portuguese-accented vowels, cedilla, tilde-n) that operation is exactly a
character-to-character map to the base letter; `STRIP_TABLE` lists that map.
`UPPER_TABLE` models `str.upper` on the diacritic-free alphabet the code
works with (ASCII letters). -/

def STRIP_TABLE : List (Char × Char) :=
  [('á','a'),('à','a'),('â','a'),('ã','a'),('ä','a'),
   ('Á','A'),('À','A'),('Â','A'),('Ã','A'),('Ä','A'),
   ('é','e'),('è','e'),('ê','e'),('ë','e'),
   ('É','E'),('È','E'),('Ê','E'),('Ë','E'),
   ('í','i'),('ì','i'),('î','i'),('ï','i'),
   ('Í','I'),('Ì','I'),('Î','I'),('Ï','I'),
   ('ó','o'),('ò','o'),('ô','o'),('õ','o'),('ö','o'),
   ('Ó','O'),('Ò','O'),('Ô','O'),('Õ','O'),('Ö','O'),
   ('ú','u'),('ù','u'),('û','u'),('ü','u'),
   ('Ú','U'),('Ù','U'),('Û','U'),('Ü','U'),
   ('ç','c'),('Ç','C'),('ñ','n'),('Ñ','N')]

def UPPER_TABLE : List (Char × Char) :=
  [('a','A'),('b','B'),('c','C'),('d','D'),('e','E'),('f','F'),('g','G'),
   ('h','H'),('i','I'),('j','J'),('k','K'),('l','L'),('m','M'),('n','N'),
   ('o','O'),('p','P'),('q','Q'),('r','R'),('s','S'),('t','T'),('u','U'),
   ('v','V'),('w','W'),('x','X'),('y','Y'),('z','Z')]

/-- Apply a finite character substitution table; characters not in the
table's domain are left unchanged. -/
def tmap (t : List (Char × Char)) (c : Char) : Char :=
  match t.find? (fun p => p.1 == c) with
  | some p => p.2
  | none => c

/-- Diacritic stripping (rom.py line 40: NFKD + drop combining marks). -/
def stripD (c : Char) : Char := tmap STRIP_TABLE c

/-- Upper-casing of one character (Python `str.upper`). -/
def upperC (c : Char) : Char := tmap UPPER_TABLE c

/-! ### Whitespace collapsing (`" ".join(s.strip().split())`, rom.py line 41)

`words` splits a character list into the maximal runs of non-whitespace
characters (Python `str.split()` with no argument), and `joinSp` is
`" ".join` on character lists. -/

def words : List Char → List (List Char)
  | [] => []
  | c :: cs =>
    if c.isWhitespace then words cs
    else
      match cs, words cs with
      | [], _ => [[c]]
      | d :: _, r =>
        if d.isWhitespace then [c] :: r
        else
          match r with
          | [] => [[c]]
          | w :: ws => (c :: w) :: ws

/-- `" ".join` on character lists (also `str.join` for whole cell lists). -/
def joinSp : List (List Char) → List Char
  | [] => []
  | [w] => w
  | w :: ws => w ++ ' ' :: joinSp ws

/-- `" ".join(l.strip().split())` on character lists. -/
def collapse (l : List Char) : List Char := joinSp (words l)

/-- `normalize` (rom.py lines 38-42): strip diacritics, collapse whitespace,
upper-case. -/
def normalize (s : String) : String :=
  ⟨(collapse (s.data.map stripD)).map upperC⟩

/-- `COLMAP` (rom.py lines 44-49), as the association list of the dict's
items in source order. -/
def COLMAP : List (String × String) :=
  [("DEMANDA","DEMANDA"),("HORARIO","HORARIO"),("ARMADOR","ARMADOR"),
   ("TRANSPORTADORA","TRANSPORTADORA"),
   ("DATA PROGRAMACAO","DATA PROGRAMAÇÃO"),
   ("DATA PROGRAMAÇÃO","DATA PROGRAMAÇÃO"),
   ("ROMANEIO","ROMANEIO"),("SKU","SKU"),("QTD","QTD"),("M3","M3"),
   ("STATUS","STATUS"),("NOME","NOME"),("MOTORISTA","NOME"),
   ("PLACA","PLACA"),("TECADI","TECADI"),("LISTA","LISTA")]

/-- Python `COLMAP.get(k, d)`. -/
def colmapGet (k d : String) : String :=
  match COLMAP.find? (fun p => p.1 == k) with
  | some p => p.2
  | none => d

/-- The canonical column key computed for a raw header cell
(rom.py line 59: `COLMAP.get(normalize(c), normalize(c))`). -/
def canonicalKey (c : String) : String := colmapGet (normalize c) (normalize c)

/-- Two header spellings differ only in letter case, diacritics and
whitespace runs: their word sequences agree after per-character diacritic
stripping and upper-casing. -/
def spellEquiv (s t : String) : Prop :=
  (words s.data).map (fun w => w.map (fun c => upperC (stripD c)))
    = (words t.data).map (fun w => w.map (fun c => upperC (stripD c)))

instance (s t : String) : Decidable (spellEquiv s t) := by
  unfold spellEquiv; infer_instance

/-! ### Header detection (`find_header_row`, rom.py lines 51-56) -/

/-- `tok.isPrefixOf hay` as a plain Boolean recursion. -/
def startsWithTok : List Char → List Char → Bool
  | [], _ => true
  | _ :: _, [] => false
  | a :: as, b :: bs => a == b && startsWithTok as bs

/-- Python substring containment `tok in hay`. -/
def hasTok (tok : List Char) : List Char → Bool
  | [] => startsWithTok tok []
  | c :: cs => startsWithTok tok (c :: cs) || hasTok tok cs

/-- One row's test in `find_header_row`:
`"DEMANDA" in joined.upper() and "ARMADOR" in joined.upper()` where
`joined = " ".join(str(x) for x in row)`. -/
def headerHit (row : List String) : Bool :=
  let joined := (joinSp (row.map String.data)).map upperC
  hasTok "DEMANDA".data joined && hasTok "ARMADOR".data joined

/-- The scan loop of `find_header_row`, carrying the absolute row index
`i`; the loop body runs only for `i < 20` (`range(min(20, len(df_raw)))`)
and the fall-through result is 0. -/
def find_header_row_from (i : Nat) : List (List String) → Nat
  | [] => 0
  | r :: rs =>
    if i < 20 then
      if headerHit r then i else find_header_row_from (i + 1) rs
    else 0

/-- `find_header_row` (rom.py lines 51-56) on a raw grid whose cells are
already stringified (`str(x)`). -/
def find_header_row (grid : List (List String)) : Nat :=
  find_header_row_from 0 grid

/-! ### Python string trimming and numeric parsing -/

/-- Python `str.strip()` on a character list. -/
def pyStripL (l : List Char) : List Char :=
  ((l.dropWhile Char.isWhitespace).reverse.dropWhile Char.isWhitespace).reverse

/-- Python `str.strip()`. -/
def pyStrip (s : String) : String := ⟨pyStripL s.data⟩

/-- Value of a digit string, most significant first. -/
def digitsVal (l : List Char) : Nat :=
  l.foldl (fun a c => 10 * a + (c.toNat - 48)) 0

/-- The value a Python float holds in this program: the decimal literals
the spreadsheet/coercion pipeline produces, represented exactly as
`num / 10 ^ e10`.  (Binary-float representation error is below every
threshold the program compares against, so the exact decimal is the
right abstraction level for its float arithmetic.) -/
structure PyFloat where
  num : ℤ
  e10 : ℕ
  deriving DecidableEq, Repr

/-- The rational value of a parsed float. -/
def PyFloat.toQ (d : PyFloat) : ℚ := (d.num : ℚ) / (10 : ℚ) ^ d.e10

/-- Build the value `m / 10 ^ fpLen * 10 ^ exp` as a `PyFloat`. -/
def mkPyFloat (m : ℤ) (fpLen : ℕ) (exp : ℤ) : PyFloat :=
  if (fpLen : ℤ) ≤ exp then ⟨m * 10 ^ (exp - fpLen).toNat, 0⟩
  else ⟨m, ((fpLen : ℤ) - exp).toNat⟩

/-- Decimal-literal parsing on a trimmed character list: optional sign,
integer digits, optional fractional digits after a point, optional signed
exponent — the grammar accepted by Python `float` (and by
`pd.to_numeric`) for the ordinary finite decimal literals this program
handles. -/
def parse_float_core (l : List Char) : Option PyFloat :=
  let sgn : ℤ := match l with | '-' :: _ => -1 | _ => 1
  let l1 : List Char := match l with
    | '+' :: r => r
    | '-' :: r => r
    | _ => l
  let ip := l1.takeWhile Char.isDigit
  let l2 := l1.dropWhile Char.isDigit
  let fp : List Char := match l2 with
    | '.' :: r => r.takeWhile Char.isDigit
    | _ => []
  let l3 : List Char := match l2 with
    | '.' :: r => r.dropWhile Char.isDigit
    | _ => l2
  if ip.isEmpty && fp.isEmpty then none
  else
    let m : ℤ := sgn * (digitsVal (ip ++ fp) : ℤ)
    match l3 with
    | [] => some (mkPyFloat m fp.length 0)
    | e :: r =>
      if e == 'e' || e == 'E' then
        let eneg : Bool := match r with | '-' :: _ => true | _ => false
        let r1 : List Char := match r with
          | '+' :: r2 => r2
          | '-' :: r2 => r2
          | _ => r
        let ed := r1.takeWhile Char.isDigit
        let r2 := r1.dropWhile Char.isDigit
        if ed.isEmpty || !r2.isEmpty then none
        else
          some (mkPyFloat m fp.length
            (if eneg then -(digitsVal ed : ℤ) else (digitsVal ed : ℤ)))
      else none

/-- Python `float(s)` on a decimal-literal string (whitespace allowed at
either end); `none` models the `ValueError` / `pd.to_numeric` coercion
failure. -/
def parse_float (s : String) : Option PyFloat := parse_float_core (pyStrip s).data

/-- The QTD cell transformation of `load_excel_from_bytes`
(rom.py lines 72-74): `str.replace(".", "")` then `str.replace(",", ".")`
then `pd.to_numeric(..., errors="coerce")`.  Both replacements are
single-character, so they are a filter and a map on characters. -/
def coerce_qtd (s : String) : Option PyFloat :=
  parse_float ⟨(s.data.filter (fun c => c != '.')).map (fun c => if c = ',' then '.' else c)⟩

/-! ### Quantity formatting (`format_qtd`, rom.py lines 113-118) -/

/-- Python 3 `round(f)` on `num / 10 ^ e10`: nearest integer, ties to
even. -/
def pyRound (d : PyFloat) : ℤ :=
  let p : ℤ := 10 ^ d.e10
  let f := Int.fdiv d.num p
  let r := d.num - f * p
  if 2 * r < p then f
  else if p < 2 * r then f + 1
  else if f % 2 = 0 then f else f + 1

/-- `abs(f - round(f)) < 1e-9`, decided exactly on the decimal value:
`|num / 10^e10 - R| < 10^-9  ↔  10^9 * |num - R * 10^e10| < 10^e10`. -/
def near_int (d : PyFloat) : Bool :=
  1000000000 * (d.num - pyRound d * 10 ^ d.e10).natAbs < 10 ^ d.e10

/-- Drop trailing decimal zeros (`12340 / 10^2 → 1234 / 10^1`), as Python
`str(float)` prints the shortest digit string. -/
def stripZeros (m : ℤ) : ℕ → PyFloat
  | 0 => ⟨m, 0⟩
  | e + 1 => if m % 10 = 0 then stripZeros (m / 10) e else ⟨m, e + 1⟩

/-- Left-pad a digit string with zeros to width `k`. -/
def padZeros (s : String) (k : ℕ) : String :=
  ⟨List.replicate (k - s.length) '0'⟩ ++ s

/-- Python `str(f)` for a float holding an exact decimal value: the
shortest decimal rendering, always with at least one fractional digit. -/
def decRender (d : PyFloat) : String :=
  let d' := stripZeros d.num d.e10
  if d'.e10 = 0 then toString d'.num ++ ".0"
  else
    let p : ℕ := 10 ^ d'.e10
    let a := d'.num.natAbs
    let sign : String := if d'.num < 0 then "-" else ""
    sign ++ toString (a / p) ++ "." ++ padZeros (toString (a % p)) d'.e10

/-- `format_qtd` (rom.py lines 113-118) at its call site, where the value
is already a string (`format_qtd(str_or_default(row, "QTD"))`):
`try: f = float(val); return str(int(round(f))) if abs(f - round(f)) < 1e-9
else str(f); except: return str(val)` — and `str` of a string is itself. -/
def format_qtd (s : String) : String :=
  match parse_float s with
  | none => s
  | some d =>
    if near_int d then toString (pyRound d)
    else decRender d

/-! ### PDF layout geometry (rom.py lines 100-111, 153-183, 236-265)

All lengths are exact rationals in PostScript points:
`cm = 72 / 2.54` points, A4 = 210mm × 297mm (reportlab's constants). -/

def cm : ℚ := 72 / (254 / 100)
def mm : ℚ := cm / 10
def A4_h : ℚ := 297 * mm
def STEP_Y : ℚ := (95 / 100) * cm
def GAP_AFTER_INFO_TITLE : ℚ := (60 / 100) * cm

/-- `title_h` in `draw_info_section`. -/
def info_title_h : ℚ := (110 / 100) * cm
/-- `content_h = 6*STEP_Y` in `draw_info_section` (6 drawn rows). -/
def info_content_h : ℚ := 6 * STEP_Y
/-- `pad_top` in `draw_info_section`. -/
def info_pad_top : ℚ := (50 / 100) * cm
/-- `pad_bottom` in `draw_info_section`. -/
def info_pad_bottom : ℚ := (60 / 100) * cm
/-- `sec_h` in `draw_info_section` (rom.py line 157). -/
def info_sec_h : ℚ :=
  info_title_h + info_pad_top + GAP_AFTER_INFO_TITLE + info_content_h + info_pad_bottom
/-- `top_y = page_h - 6.1*cm` (rom.py line 159). -/
def info_top_y (page_h : ℚ) : ℚ := page_h - (610 / 100) * cm
/-- `bottom_y = top_y - sec_h` (rom.py line 160). -/
def info_bottom_y (page_h : ℚ) : ℚ := info_top_y page_h - info_sec_h
/-- The value `draw_info_section` returns: `bottom_y - 0.9*cm`
(rom.py line 183). -/
def draw_info_section_ret (page_h : ℚ) : ℚ := info_bottom_y page_h - (90 / 100) * cm

/-- `next_y = draw_info_section(c, info, page_w, page_h)` in
`gerar_pdf_row` (rom.py line 251) with the A4 page height. -/
def gerar_next_y : ℚ := draw_info_section_ret A4_h
/-- The `start_y` argument `gerar_pdf_row` passes to
`draw_products_section` (rom.py line 260): `next_y`, unchanged. -/
def gerar_products_start_y : ℚ := gerar_next_y

/-- Modelled from the spec: the info-section height formula
`title_height + top_padding + title_gap + row_count * row_step +
bottom_padding`, with the row count left as a parameter. -/
def specInfoSecHeight (rowCount : ℕ) : ℚ :=
  info_title_h + info_pad_top + GAP_AFTER_INFO_TITLE + rowCount * STEP_Y + info_pad_bottom

/-! ### Rows, tables and the surrounding Streamlit workflow -/

/-- One row of the normalized table: an association list from column name
to cell, where `none` models a NaN cell.  A column absent from the list
models a column absent from the row's index. -/
def Row : Type := List (String × Option String)

/-- `col in row` together with the stored cell. -/
def row_lookup (row : Row) (col : String) : Option (Option String) :=
  (List.find? (fun p => p.1 == col) row).map (fun p => p.2)

/-- `str(row.get(col, ""))`: default `""` when the column is absent, and
Python's `str(nan) = "nan"` when the cell is NaN. -/
def py_get_str (row : Row) (col : String) : String :=
  match row_lookup row col with
  | none => ""
  | some none => "nan"
  | some (some v) => v

/-- `str_or_default` (rom.py lines 120-121):
`str(row[col]).strip() if col in row and pd.notna(row[col]) else default`
with the default `""`. -/
def str_or_default (row : Row) (col : String) : String :=
  match row_lookup row col with
  | some (some v) => pyStrip v
  | _ => ""

/-- `re.search(r"(\d+)", s)`: the first maximal run of (ASCII) digits. -/
def first_digit_run : List Char → Option (List Char)
  | [] => none
  | c :: cs =>
    if c.isDigit then some (c :: cs.takeWhile Char.isDigit)
    else first_digit_run cs

/-- `demanda_num`: the first digit run of the raw demand text, or the raw
text itself when it has no digits (rom.py lines 363-364, 401-402, 422). -/
def demanda_num (s : String) : String :=
  match first_digit_run s.data with
  | some d => ⟨d⟩
  | none => s

/-- `_make_key` (rom.py lines 399-403):
`f"{demanda_num}|{str(row.get('ARMADOR',''))}"`. -/
def _make_key (row : Row) : String :=
  demanda_num (py_get_str row "DEMANDA") ++ "|" ++ py_get_str row "ARMADOR"

/-- The per-record output file name (rom.py lines 421-424):
`f"{demanda_num}.{armador}.pdf"` built from `str_or_default` fields. -/
def pdf_fname (row : Row) : String :=
  demanda_num (str_or_default row "DEMANDA") ++ "." ++ str_or_default row "ARMADOR" ++ ".pdf"

/-- `REQUIRED_FOR_PDF` (rom.py line 33). -/
def REQUIRED_FOR_PDF : List String :=
  ["ARMADOR","TECADI","SKU","QTD","LISTA","DEMANDA","TRANSPORTADORA","NOME","PLACA"]

/-- The normalized table as the generation step sees it: its column names
and its rows. -/
structure Table where
  cols : List String
  rows : List Row

/-- `faltam` (rom.py line 410): the required column names absent from the
table's columns. -/
def faltam (df : Table) : List String :=
  REQUIRED_FOR_PDF.filter (fun c => !df.cols.contains c)

/-- The required-field gate (rom.py lines 410-412): generation proceeds
iff `faltam` is empty. -/
def gate_passes (df : Table) : Bool := faltam df == []

/-- A record actually holds a (non-NaN) value for every required field. -/
def row_has_all_required (r : Row) : Bool :=
  REQUIRED_FOR_PDF.all (fun c =>
    match row_lookup r c with
    | some (some _) => true
    | _ => false)

/-- The zip-writing loop of `bt_gerar` (rom.py lines 417-427): one entry
per row of `df_ok`, a PDF named from the row on success and an
`ERRO_{i}.txt` marker on failure.  The composer is abstracted as an
`Except`-valued function, since whether `gerar_pdf_row` raises depends on
the rendering library. -/
def bt_gerar_loop (render : Row → Except String String) (rows : List (Nat × Row)) :
    List (String × String) :=
  rows.map (fun ir =>
    match render ir.2 with
    | Except.ok pdf => (pdf_fname ir.2, pdf)
    | Except.error e =>
        ("ERRO_" ++ toString ir.1 ++ ".txt",
         "Falha na linha " ++ toString ir.1 ++ ": " ++ e))

/-- The Streamlit session state touched by `bt_atualizar`
(rom.py lines 324-336). -/
structure AppState where
  df_cache : Option Table
  fetch_error : Option String

/-- The `bt_atualizar` handler (rom.py lines 327-336): on a successful
fetch-and-load, cache the new table and clear the error; on any
exception, set the cache to `None` and record the error text. -/
def bt_atualizar_update (fetched : Except String Table) (_s : AppState) : AppState :=
  match fetched with
  | Except.ok t => { df_cache := some t, fetch_error := none }
  | Except.error e => { df_cache := none, fetch_error := some e }

/-! ### Concrete example data used to exercise the theorems -/

/-- A raw grid whose second row holds both marker tokens (in mixed case). -/
def exGrid : List (List String) := [["x", "y"], ["demanda foo", "ArmaDOR"]]

/-- Example records sharing the digit run `123` and the carrier. -/
def exRowA : Row := [("DEMANDA", some "FAST 123 A"), ("ARMADOR", some "MAERSK")]
def exRowB : Row := [("DEMANDA", some "123-B"), ("ARMADOR", some "MAERSK")]

/-- Three records for a batch where the middle one will fail to render. -/
def exRow1 : Row := [("DEMANDA", some "1"), ("ARMADOR", some "MSC")]
def exRow2 : Row := [("DEMANDA", some "2"), ("ARMADOR", some "MSC")]
def exRow3 : Row := [("DEMANDA", some "3"), ("ARMADOR", some "MSC")]

/-- A composer stub that fails exactly on the record with demand "2". -/
def exRender (r : Row) : Except String String :=
  if py_get_str r "DEMANDA" == "2" then Except.error "boom" else Except.ok "PDF"

/-- A row whose required `ARMADOR` cell is NaN while every required column
exists in the table. -/
def exNullRow : Row :=
  [("ARMADOR", none), ("TECADI", some "T1"), ("SKU", some "S"),
   ("QTD", some "10"), ("LISTA", some "L"), ("DEMANDA", some "123"),
   ("TRANSPORTADORA", some "TR"), ("NOME", some "N"), ("PLACA", some "P")]

/-- A table with all required columns and `exNullRow` as its only row. -/
def exNullTable : Table := ⟨REQUIRED_FOR_PDF, [exNullRow]⟩

/-- A previously loaded (cached) table. -/
def exCachedTable : Table := ⟨["DEMANDA"], [[("DEMANDA", some "7")]]⟩

/-- A session state holding a previously loaded table. -/
def exState : AppState := { df_cache := some exCachedTable, fetch_error := none }

/-!
## Theorems

First the helper lemmas about the character tables and the word splitter,
then one theorem per claim.
-/

theorem strip_table_facts :
    ∀ p ∈ STRIP_TABLE, p.1.isWhitespace = false ∧ p.2.isWhitespace = false ∧
      STRIP_TABLE.find? (fun q => q.1 == p.2) = none := by decide

theorem upper_table_facts :
    ∀ p ∈ UPPER_TABLE, p.1.isWhitespace = false ∧ p.2.isWhitespace = false ∧
      UPPER_TABLE.find? (fun q => q.1 == p.2) = none ∧
      STRIP_TABLE.find? (fun q => q.1 == p.2) = none := by decide

theorem tmap_of_none {t : List (Char × Char)} {c : Char}
    (h : t.find? (fun p => p.1 == c) = none) : tmap t c = c := by
  unfold tmap; rw [h]

theorem tmap_eq_snd {t : List (Char × Char)} {c : Char} {p : Char × Char}
    (h : t.find? (fun p => p.1 == c) = some p) : tmap t c = p.2 := by
  unfold tmap; rw [h]

theorem tmap_ws (t : List (Char × Char))
    (hdom : ∀ p ∈ t, p.1.isWhitespace = false ∧ p.2.isWhitespace = false)
    (c : Char) : (tmap t c).isWhitespace = c.isWhitespace := by
  cases h : t.find? (fun p => p.1 == c) with
  | none => rw [tmap_of_none h]
  | some p =>
    have hm := List.mem_of_find?_eq_some h
    have hpc : p.1 = c := by simpa using List.find?_some h
    rw [tmap_eq_snd h, (hdom p hm).2, ← hpc, (hdom p hm).1]

theorem stripD_ws (c : Char) : (stripD c).isWhitespace = c.isWhitespace :=
  tmap_ws _ (fun p hp => ⟨(strip_table_facts p hp).1, (strip_table_facts p hp).2.1⟩) c

theorem upperC_ws (c : Char) : (upperC c).isWhitespace = c.isWhitespace :=
  tmap_ws _ (fun p hp => ⟨(upper_table_facts p hp).1, (upper_table_facts p hp).2.1⟩) c

theorem stripD_stripD (c : Char) : stripD (stripD c) = stripD c := by
  cases h : STRIP_TABLE.find? (fun p => p.1 == c) with
  | none =>
    have hc : stripD c = c := tmap_of_none h
    rw [hc]; exact hc
  | some p =>
    have hm := List.mem_of_find?_eq_some h
    have hc : stripD c = p.2 := tmap_eq_snd h
    rw [hc]
    exact tmap_of_none (strip_table_facts p hm).2.2

theorem upperC_upperC (c : Char) : upperC (upperC c) = upperC c := by
  cases h : UPPER_TABLE.find? (fun p => p.1 == c) with
  | none =>
    have hc : upperC c = c := tmap_of_none h
    rw [hc]; exact hc
  | some p =>
    have hm := List.mem_of_find?_eq_some h
    have hc : upperC c = p.2 := tmap_eq_snd h
    rw [hc]
    exact tmap_of_none (upper_table_facts p hm).2.2.1

theorem stripD_upperC_of_fixed {e : Char} (he : stripD e = e) :
    stripD (upperC e) = upperC e := by
  cases h : UPPER_TABLE.find? (fun p => p.1 == e) with
  | none =>
    have hc : upperC e = e := tmap_of_none h
    rw [hc]; exact he
  | some p =>
    have hm := List.mem_of_find?_eq_some h
    have hc : upperC e = p.2 := tmap_eq_snd h
    rw [hc]
    exact tmap_of_none (upper_table_facts p hm).2.2.2

theorem stripD_space : stripD ' ' = ' ' := by decide

theorem upperC_space : upperC ' ' = ' ' := by decide

theorem words_cons_of_ws {c : Char} {cs : List Char} (h : c.isWhitespace = true) :
    words (c :: cs) = words cs := by
  simp [words, h]

theorem words_singleton {c : Char} (h : c.isWhitespace = false) :
    words [c] = [[c]] := by
  simp [words, h]

theorem words_cons_cons_ws {c d : Char} {cs : List Char}
    (hc : c.isWhitespace = false) (hd : d.isWhitespace = true) :
    words (c :: d :: cs) = [c] :: words (d :: cs) := by
  simp [words, hc, hd]

theorem words_cons_cons_nws {c d : Char} {cs : List Char} {w : List Char}
    {ws' : List (List Char)} (hc : c.isWhitespace = false)
    (hd : d.isWhitespace = false) (hw : words (d :: cs) = w :: ws') :
    words (c :: d :: cs) = (c :: w) :: ws' := by
  conv_lhs => rw [words]
  simp [hc, hd, hw]

theorem words_cons_head :
    ∀ (cs : List Char) (c : Char), c.isWhitespace = false →
      ∃ t r, words (c :: cs) = (c :: t) :: r := by
  intro cs
  induction cs with
  | nil => intro c hc; exact ⟨[], [], words_singleton hc⟩
  | cons d cs ih =>
    intro c hc
    cases hd : d.isWhitespace with
    | true => exact ⟨[], words (d :: cs), words_cons_cons_ws hc hd⟩
    | false =>
      obtain ⟨t, r, hw⟩ := ih d hd
      exact ⟨d :: t, r, words_cons_cons_nws hc hd hw⟩

theorem words_good :
    ∀ (l : List Char), ∀ w ∈ words l, w ≠ [] ∧ ∀ c ∈ w, c.isWhitespace = false := by
  intro l
  induction l with
  | nil => intro w hw; simp [words] at hw
  | cons c cs ih =>
    intro w hw
    cases hc : c.isWhitespace with
    | true =>
      rw [words_cons_of_ws hc] at hw
      exact ih w hw
    | false =>
      cases cs with
      | nil =>
        rw [words_singleton hc] at hw
        simp at hw
        subst hw
        exact ⟨by simp, by simpa using hc⟩
      | cons d cs' =>
        cases hd : d.isWhitespace with
        | true =>
          rw [words_cons_cons_ws hc hd] at hw
          rcases List.mem_cons.mp hw with h1 | h2
          · subst h1
            exact ⟨by simp, by simpa using hc⟩
          · exact ih w h2
        | false =>
          obtain ⟨t, r, hshape⟩ := words_cons_head cs' d hd
          rw [words_cons_cons_nws hc hd hshape] at hw
          rcases List.mem_cons.mp hw with h1 | h2
          · subst h1
            refine ⟨by simp, ?_⟩
            intro x hx
            rcases List.mem_cons.mp hx with h3 | h4
            · subst h3; exact hc
            · exact (ih (d :: t) (by rw [hshape]; exact List.mem_cons_self _ _)).2 x h4
          · exact ih w (by rw [hshape]; exact List.mem_cons_of_mem _ h2)

theorem words_chars :
    ∀ (l : List Char), ∀ w ∈ words l, ∀ x ∈ w, x ∈ l := by
  intro l
  induction l with
  | nil => intro w hw; simp [words] at hw
  | cons c cs ih =>
    intro w hw x hx
    cases hc : c.isWhitespace with
    | true =>
      rw [words_cons_of_ws hc] at hw
      exact List.mem_cons_of_mem _ (ih w hw x hx)
    | false =>
      cases cs with
      | nil =>
        rw [words_singleton hc] at hw
        simp at hw
        subst hw
        simpa using hx
      | cons d cs' =>
        cases hd : d.isWhitespace with
        | true =>
          rw [words_cons_cons_ws hc hd] at hw
          rcases List.mem_cons.mp hw with h1 | h2
          · subst h1
            simp at hx
            simp [hx]
          · exact List.mem_cons_of_mem _ (ih w h2 x hx)
        | false =>
          obtain ⟨t, r, hshape⟩ := words_cons_head cs' d hd
          rw [words_cons_cons_nws hc hd hshape] at hw
          rcases List.mem_cons.mp hw with h1 | h2
          · subst h1
            rcases List.mem_cons.mp hx with h3 | h4
            · subst h3; exact List.mem_cons_self _ _
            · exact List.mem_cons_of_mem _
                (ih (d :: t) (by rw [hshape]; exact List.mem_cons_self _ _) x h4)
          · exact List.mem_cons_of_mem _
              (ih w (by rw [hshape]; exact List.mem_cons_of_mem _ h2) x hx)

theorem words_all_nonws :
    ∀ (w : List Char), w ≠ [] → (∀ c ∈ w, c.isWhitespace = false) →
      words w = [w] := by
  intro w
  induction w with
  | nil => intro h; exact absurd rfl h
  | cons c w' ih =>
    intro _ hall
    have hc : c.isWhitespace = false := hall c (List.mem_cons_self _ _)
    cases w' with
    | nil => exact words_singleton hc
    | cons d w'' =>
      have hd : d.isWhitespace = false := hall d (by simp)
      have hw : words (d :: w'') = [d :: w''] :=
        ih (by simp) (fun x hx => hall x (List.mem_cons_of_mem _ hx))
      exact words_cons_cons_nws hc hd hw

theorem words_word_append :
    ∀ (w t : List Char), w ≠ [] → (∀ c ∈ w, c.isWhitespace = false) →
      words (w ++ ' ' :: t) = w :: words t := by
  intro w
  induction w with
  | nil => intro t h; exact absurd rfl h
  | cons c w' ih =>
    intro t _ hall
    have hc : c.isWhitespace = false := hall c (List.mem_cons_self _ _)
    cases w' with
    | nil =>
      have : words (' ' :: t) = words t := words_cons_of_ws (by decide)
      rw [List.cons_append, List.nil_append, words_cons_cons_ws hc (by decide), this]
    | cons d w'' =>
      have hd : d.isWhitespace = false := hall d (by simp)
      have hw : words ((d :: w'') ++ ' ' :: t) = (d :: w'') :: words t :=
        ih t (by simp) (fun x hx => hall x (List.mem_cons_of_mem _ hx))
      rw [List.cons_append]
      exact words_cons_cons_nws hc hd hw

theorem joinSp_cons_cons (w w' : List Char) (ws : List (List Char)) :
    joinSp (w :: w' :: ws) = w ++ ' ' :: joinSp (w' :: ws) := by
  rfl

theorem words_joinSp :
    ∀ (ws : List (List Char)),
      (∀ w ∈ ws, w ≠ [] ∧ ∀ c ∈ w, c.isWhitespace = false) →
      words (joinSp ws) = ws := by
  intro ws
  induction ws with
  | nil => intro _; rfl
  | cons w ws' ih =>
    intro hgood
    cases ws' with
    | nil =>
      show words w = [w]
      exact words_all_nonws w (hgood w (by simp)).1 (hgood w (by simp)).2
    | cons w' ws'' =>
      rw [joinSp_cons_cons,
        words_word_append w _ (hgood w (by simp)).1 (hgood w (by simp)).2,
        ih (fun v hv => hgood v (List.mem_cons_of_mem _ hv))]

theorem collapse_idem (l : List Char) : collapse (collapse l) = collapse l := by
  unfold collapse
  rw [words_joinSp (words l) (words_good l)]

theorem joinSp_chars :
    ∀ (ws : List (List Char)) (x : Char), x ∈ joinSp ws →
      x = ' ' ∨ ∃ w ∈ ws, x ∈ w := by
  intro ws
  induction ws with
  | nil => intro x hx; simp [joinSp] at hx
  | cons w ws' ih =>
    intro x hx
    cases ws' with
    | nil => exact Or.inr ⟨w, by simp, hx⟩
    | cons w' ws'' =>
      rw [joinSp_cons_cons] at hx
      rcases List.mem_append.mp hx with h1 | h2
      · exact Or.inr ⟨w, by simp, h1⟩
      · rcases List.mem_cons.mp h2 with h3 | h4
        · exact Or.inl h3
        · rcases ih x h4 with h5 | ⟨v, hv, hxv⟩
          · exact Or.inl h5
          · exact Or.inr ⟨v, List.mem_cons_of_mem _ hv, hxv⟩

theorem collapse_chars {l : List Char} {x : Char} (hx : x ∈ collapse l) :
    x = ' ' ∨ x ∈ l := by
  rcases joinSp_chars (words l) x hx with h1 | ⟨w, hw, hxw⟩
  · exact Or.inl h1
  · exact Or.inr (words_chars l w hw x hxw)

theorem words_map (f : Char → Char)
    (hf : ∀ c, (f c).isWhitespace = c.isWhitespace) :
    ∀ (l : List Char), words (l.map f) = (words l).map (List.map f) := by
  intro l
  induction l with
  | nil => rfl
  | cons c cs ih =>
    cases hc : c.isWhitespace with
    | true =>
      have hfc : (f c).isWhitespace = true := by rw [hf c]; exact hc
      rw [List.map_cons, words_cons_of_ws hfc, words_cons_of_ws hc, ih]
    | false =>
      have hfc : (f c).isWhitespace = false := by rw [hf c]; exact hc
      cases cs with
      | nil =>
        rw [List.map_cons, List.map_nil, words_singleton hfc, words_singleton hc]
        rfl
      | cons d cs' =>
        cases hd : d.isWhitespace with
        | true =>
          have hfd : (f d).isWhitespace = true := by rw [hf d]; exact hd
          rw [List.map_cons, List.map_cons, words_cons_cons_ws hfc hfd,
            words_cons_cons_ws hc hd, List.map_cons, ← List.map_cons f d cs', ih]
          rfl
        | false =>
          have hfd : (f d).isWhitespace = false := by rw [hf d]; exact hd
          obtain ⟨t, r, hshape⟩ := words_cons_head cs' d hd
          have hmapped : words ((d :: cs').map f) = (f d :: t.map f) :: r.map (List.map f) := by
            rw [ih, hshape]; rfl
          rw [List.map_cons, List.map_cons,
            words_cons_cons_nws hfc hfd hmapped,
            words_cons_cons_nws hc hd hshape]
          rfl

theorem joinSp_map (f : Char → Char) (hsp : f ' ' = ' ') :
    ∀ (ws : List (List Char)), joinSp (ws.map (List.map f)) = (joinSp ws).map f := by
  intro ws
  induction ws with
  | nil => rfl
  | cons w ws' ih =>
    cases ws' with
    | nil => rfl
    | cons w' ws'' =>
      simp only [List.map_cons]
      rw [joinSp_cons_cons, joinSp_cons_cons, List.map_append, List.map_cons,
        hsp, ← List.map_cons (List.map f) w' ws'', ih]

theorem collapse_map (f : Char → Char)
    (hf : ∀ c, (f c).isWhitespace = c.isWhitespace) (hsp : f ' ' = ' ')
    (l : List Char) : collapse (l.map f) = (collapse l).map f := by
  unfold collapse
  rw [words_map f hf, joinSp_map f hsp]

theorem normalize_idem_aux (s : String) :
    normalize (normalize s) = normalize s := by
  show (⟨(collapse (((collapse (s.data.map stripD)).map upperC).map stripD)).map upperC⟩ : String)
      = ⟨(collapse (s.data.map stripD)).map upperC⟩
  apply congrArg String.mk
  have h1 : ((collapse (s.data.map stripD)).map upperC).map stripD
      = (collapse (s.data.map stripD)).map upperC := by
    rw [List.map_map]
    apply List.map_congr_left
    intro c hc
    rcases collapse_chars hc with h' | h'
    · subst h'
      show stripD (upperC ' ') = upperC ' '
      rw [upperC_space, stripD_space]
    · obtain ⟨d, _, rfl⟩ := List.mem_map.mp h'
      exact stripD_upperC_of_fixed (stripD_stripD d)
  rw [h1, collapse_map upperC upperC_ws upperC_space, collapse_idem, List.map_map]
  apply List.map_congr_left
  intro c _
  exact upperC_upperC c

theorem normalize_data_eq (s : String) :
    (normalize s).data
      = joinSp ((words s.data).map (fun w => w.map (fun c => upperC (stripD c)))) := by
  show (collapse (s.data.map stripD)).map upperC = _
  unfold collapse
  rw [words_map stripD stripD_ws, ← joinSp_map upperC upperC_space, List.map_map]
  apply congrArg joinSp
  apply List.map_congr_left
  intro w _
  show (w.map stripD).map upperC = _
  rw [List.map_map]
  rfl

theorem normalize_of_spellEquiv {s t : String} (h : spellEquiv s t) :
    normalize s = normalize t := by
  have hd : (normalize s).data = (normalize t).data := by
    rw [normalize_data_eq, normalize_data_eq, h]
  calc normalize s = ⟨(normalize s).data⟩ := rfl
    _ = ⟨(normalize t).data⟩ := congrArg String.mk hd
    _ = normalize t := rfl

/-- **C4.** Header-cell normalization is idempotent, the three example
spellings all map to the canonical key `"DATA PROGRAMAÇÃO"` through the
alias table, and any two spellings that differ only in letter case,
diacritics or whitespace runs (`spellEquiv`) get the same canonical
column key. -/
theorem C4_normalize_spec :
    (∀ s : String, normalize (normalize s) = normalize s) ∧
    canonicalKey "Data Programação" = "DATA PROGRAMAÇÃO" ∧
    canonicalKey "DATA PROGRAMACAO" = "DATA PROGRAMAÇÃO" ∧
    canonicalKey "  data   programacao " = "DATA PROGRAMAÇÃO" ∧
    (∀ s t : String, spellEquiv s t → canonicalKey s = canonicalKey t) := by
  refine ⟨normalize_idem_aux, by decide, by decide, by decide, ?_⟩
  intro s t h
  unfold canonicalKey
  rw [normalize_of_spellEquiv h]

/-- Witness for C4 at a concrete pair of spellings differing in case,
diacritics and whitespace. -/
theorem C4_witness :
    canonicalKey "Data Programação" = canonicalKey "  DATA   programacao " :=
  C4_normalize_spec.2.2.2.2 "Data Programação" "  DATA   programacao " (by decide)

theorem find_header_row_from_hit :
    ∀ (rs : List (List String)) (i k : Nat), k < rs.length → i + k < 20 →
      headerHit (rs.getD k []) = true →
      (∀ j, j < k → headerHit (rs.getD j []) = false) →
      find_header_row_from i rs = i + k := by
  intro rs
  induction rs with
  | nil => intro i k hk; exact absurd hk (by simp)
  | cons r rs ih =>
    intro i k hk hik hhit hprev
    have hi : i < 20 := by omega
    cases k with
    | zero =>
      have h0 : headerHit r = true := hhit
      simp [find_header_row_from, hi, h0]
    | succ k' =>
      have h0 : headerHit r = false := hprev 0 (Nat.succ_pos _)
      have hhit' : headerHit (rs.getD k' []) = true := hhit
      have hprev' : ∀ j, j < k' → headerHit (rs.getD j []) = false :=
        fun j hj => hprev (j + 1) (by omega)
      have hrec := ih (i + 1) k' (by simpa using hk) (by omega) hhit' hprev'
      have hstep : find_header_row_from i (r :: rs) = find_header_row_from (i + 1) rs := by
        simp [find_header_row_from, hi, h0]
      rw [hstep, hrec]
      omega

theorem find_header_row_from_none :
    ∀ (rs : List (List String)) (i : Nat),
      (∀ j, j < rs.length → i + j < 20 → headerHit (rs.getD j []) = false) →
      find_header_row_from i rs = 0 := by
  intro rs
  induction rs with
  | nil => intro i _; rfl
  | cons r rs ih =>
    intro i h
    by_cases hi : i < 20
    · have h0 : headerHit r = false := h 0 (by simp) (by omega)
      have hrec := ih (i + 1)
        (fun j hj hij => h (j + 1) (by simpa using hj) (by omega))
      simp [find_header_row_from, hi, h0, hrec]
    · simp [find_header_row_from, hi]

/-- **C1.** Header detection scans at most the first 20 rows: when `k`
(inside the scan window) is the first row whose concatenated upper-cased
cell text contains both `"DEMANDA"` and `"ARMADOR"`, it returns `k`; when
no row in the window hits, it returns 0 (total, never an error). -/
theorem C1_find_header_row_spec (grid : List (List String)) :
    (∀ k, k < min 20 grid.length → headerHit (grid.getD k []) = true →
      (∀ j, j < k → headerHit (grid.getD j []) = false) →
      find_header_row grid = k) ∧
    ((∀ j, j < min 20 grid.length → headerHit (grid.getD j []) = false) →
      find_header_row grid = 0) := by
  constructor
  · intro k hk hhit hprev
    have h := find_header_row_from_hit grid 0 k (by omega) (by omega) hhit hprev
    simpa [find_header_row] using h
  · intro hnone
    exact find_header_row_from_none grid 0 (fun j hj hij => hnone j (by omega))

/-- Witness for C1: on `exGrid` the mixed-case marker row at index 1 is
found. -/
theorem C1_witness : find_header_row exGrid = 1 :=
  (C1_find_header_row_spec exGrid).1 1 (by decide) (by decide)
    (fun j hj => by
      have hj0 : j = 0 := by omega
      subst hj0
      decide)

/-- **C2.** Quantity coercion first drops every period, then turns commas
into periods, then parses the result as a decimal number; `"1.234,5"`
gives 1234.5, `"10"` gives 10, and an unparsable cell like `"abc"` gives
`none` — the coercion is a total function into `Option ℚ`, never an
error. -/
theorem C2_coerce_qtd_spec :
    (∀ s : String,
      coerce_qtd s =
        parse_float
          ⟨(s.data.filter (fun c => c != '.')).map (fun c => if c = ',' then '.' else c)⟩) ∧
    (coerce_qtd "1.234,5").map PyFloat.toQ = some ((2469 : ℚ) / 2) ∧
    (coerce_qtd "10").map PyFloat.toQ = some 10 ∧
    coerce_qtd "abc" = none := by
  refine ⟨fun s => rfl, ?_, ?_, by decide⟩
  · have h : coerce_qtd "1.234,5" = some ⟨12345, 1⟩ := by decide
    have hq : PyFloat.toQ ⟨12345, 1⟩ = (2469 : ℚ) / 2 := by
      norm_num [PyFloat.toQ]
    rw [h, Option.map_some', hq]
  · have h : coerce_qtd "10" = some ⟨10, 0⟩ := by decide
    have hq : PyFloat.toQ ⟨10, 0⟩ = (10 : ℚ) := by
      norm_num [PyFloat.toQ]
    rw [h, Option.map_some', hq]

/-- **C3.** Quantity formatting: a parsed number within `1e-9` of its
(banker's) rounding renders as an integer string, a parsed non-integral
number renders with its decimal digits, and non-numeric text passes
through unchanged. -/
theorem C3_format_qtd_spec :
    format_qtd "1234.0" = "1234" ∧
    format_qtd "1234.5" = "1234.5" ∧
    (∀ s : String, parse_float s = none → format_qtd s = s) := by
  refine ⟨by decide, by decide, ?_⟩
  intro s h
  unfold format_qtd
  rw [h]

/-- Witness for C3's pass-through clause at the non-numeric input
`"abc"`. -/
theorem C3_witness : format_qtd "abc" = "abc" :=
  C3_format_qtd_spec.2.2 "abc" (by decide)

/-- **C5.** Section chaining: the info-section height is the spec formula
at row count 6, that formula grows by exactly one `STEP_Y` per added row,
the value the info-section draw returns is the section's bottom Y minus
its fixed 0.9 cm offset, and that value is passed unchanged as the
product section's start Y. -/
theorem C5_section_chaining_spec :
    info_sec_h = specInfoSecHeight 6 ∧
    (∀ n : ℕ, specInfoSecHeight (n + 1) = specInfoSecHeight n + STEP_Y) ∧
    (∀ page_h : ℚ, draw_info_section_ret page_h = info_bottom_y page_h - (90 / 100) * cm) ∧
    gerar_products_start_y = draw_info_section_ret A4_h := by
  refine ⟨?_, ?_, fun _ => rfl, rfl⟩
  · unfold info_sec_h specInfoSecHeight info_content_h
    push_cast
    ring
  · intro n
    unfold specInfoSecHeight
    push_cast
    ring

/-- **C6.** Batch isolation in the zip-writing loop: the output has one
entry per selected record, every successfully rendered record's document
is in the bundle, every failing record contributes an `ERRO_{i}.txt`
marker in its place, and a 3-record batch whose middle record fails
yields exactly two documents and one error marker. -/
theorem C6_batch_isolation_spec (render : Row → Except String String)
    (rows : List (Nat × Row)) :
    (bt_gerar_loop render rows).length = rows.length ∧
    (∀ ir ∈ rows, ∀ pdf, render ir.2 = Except.ok pdf →
      (pdf_fname ir.2, pdf) ∈ bt_gerar_loop render rows) ∧
    (∀ ir ∈ rows, ∀ e, render ir.2 = Except.error e →
      ("ERRO_" ++ toString ir.1 ++ ".txt",
        "Falha na linha " ++ toString ir.1 ++ ": " ++ e) ∈ bt_gerar_loop render rows) ∧
    (∀ (i1 : Nat) (r1 : Row) (i2 : Nat) (r2 : Row) (i3 : Nat) (r3 : Row)
        (d1 d3 e : String),
      render r1 = Except.ok d1 → render r2 = Except.error e →
      render r3 = Except.ok d3 →
      bt_gerar_loop render [(i1, r1), (i2, r2), (i3, r3)] =
        [(pdf_fname r1, d1),
         ("ERRO_" ++ toString i2 ++ ".txt", "Falha na linha " ++ toString i2 ++ ": " ++ e),
         (pdf_fname r3, d3)]) := by
  refine ⟨List.length_map _ _, ?_, ?_, ?_⟩
  · intro ir hir pdf h
    exact List.mem_map.mpr ⟨ir, hir, by simp [h]⟩
  · intro ir hir e h
    exact List.mem_map.mpr ⟨ir, hir, by simp [h]⟩
  · intro i1 r1 i2 r2 i3 r3 d1 d3 e h1 h2 h3
    simp [bt_gerar_loop, h1, h2, h3]

/-- Witness for C6: with the concrete stub composer failing exactly on
the middle record, the batch yields two documents and one marker. -/
theorem C6_witness :
    bt_gerar_loop exRender [(0, exRow1), (1, exRow2), (2, exRow3)] =
      [(pdf_fname exRow1, "PDF"),
       ("ERRO_" ++ toString (1 : Nat) ++ ".txt",
        "Falha na linha " ++ toString (1 : Nat) ++ ": " ++ "boom"),
       (pdf_fname exRow3, "PDF")] :=
  (C6_batch_isolation_spec exRender [(0, exRow1), (1, exRow2), (2, exRow3)]).2.2.2
    0 exRow1 1 exRow2 2 exRow3 "PDF" "PDF" "boom" rfl rfl rfl

/-- **C8 counterexample.** A failed refresh does not preserve the
previously cached table: starting from a state holding `exCachedTable`,
the handler leaves the cache different from (indeed cleared of) that
table. -/
theorem C8_counterexample :
    (bt_atualizar_update (Except.error "download failed") exState).df_cache
        ≠ some exCachedTable ∧
    exState.df_cache = some exCachedTable := by
  exact ⟨fun h => Option.noConfusion h, rfl⟩

/-- **C8 amended.** A failed refresh discards the cached table (sets it
to `None`) and records the error text; a successful refresh replaces the
cache with the freshly loaded table and clears the error.  In neither
case is a partially loaded table kept. -/
theorem C8_amended_spec (s : AppState) (e : String) :
    bt_atualizar_update (Except.error e) s
        = { df_cache := none, fetch_error := some e } ∧
    ∀ t : Table, bt_atualizar_update (Except.ok t) s
        = { df_cache := some t, fetch_error := none } :=
  ⟨rfl, fun _ => rfl⟩

/-- **C9 counterexample.** The gate checks only that the required column
names exist: on `exNullTable` every required column is present, the gate
passes, yet its (selected) row has no value in the required `ARMADOR`
field. -/
theorem C9_counterexample :
    gate_passes exNullTable = true ∧
    exNullRow ∈ exNullTable.rows ∧
    row_has_all_required exNullRow = false := by
  refine ⟨by decide, ?_, by decide⟩
  simp [exNullTable]

/-- **C9 amended.** Before batch generation the workflow checks the
table's column set, not per-record values: generation proceeds exactly
when every required column name is among the table's columns. -/
theorem C9_amended_spec (df : Table) :
    gate_passes df = true ↔ ∀ c ∈ REQUIRED_FOR_PDF, df.cols.contains c = true := by
  simp [gate_passes, faltam, List.filter_eq_nil_iff]

/-- Witness for C9's amended claim at the concrete table with all
required columns. -/
theorem C9_witness : gate_passes exNullTable = true :=
  (C9_amended_spec exNullTable).mpr (by decide)

theorem ws_not_digit (c : Char) (h : c.isWhitespace = true) : c.isDigit = false := by
  simp [Char.isWhitespace] at h
  rcases h with ((h | h) | h) | h <;> subst h <;> decide

theorem fdr_dropWhile_ws :
    ∀ l : List Char,
      first_digit_run (l.dropWhile Char.isWhitespace) = first_digit_run l := by
  intro l
  induction l with
  | nil => rfl
  | cons c cs ih =>
    cases hc : c.isWhitespace with
    | true =>
      have hd : c.isDigit = false := ws_not_digit c hc
      rw [List.dropWhile_cons]
      simp only [hc, if_true, ih]
      simp [first_digit_run, hd]
    | false =>
      rw [List.dropWhile_cons]
      simp [hc]

theorem fdr_all_ws :
    ∀ t : List Char, (∀ c ∈ t, c.isWhitespace = true) → first_digit_run t = none := by
  intro t
  induction t with
  | nil => intro _; rfl
  | cons x t' ih =>
    intro h
    have hd : x.isDigit = false := ws_not_digit x (h x (by simp))
    simp [first_digit_run, hd]
    exact ih (fun c hc => h c (List.mem_cons_of_mem _ hc))

theorem takeWhile_digit_append (t : List Char)
    (ht : ∀ c ∈ t, c.isWhitespace = true) :
    ∀ a : List Char, List.takeWhile Char.isDigit (a ++ t) = List.takeWhile Char.isDigit a := by
  intro a
  induction a with
  | nil =>
    cases t with
    | nil => rfl
    | cons x t' =>
      have hd : x.isDigit = false := ws_not_digit x (ht x (by simp))
      simp [List.takeWhile_cons, hd]
  | cons x a' ih =>
    cases hx : x.isDigit with
    | true => simp [List.takeWhile_cons, hx, ih]
    | false => simp [List.takeWhile_cons, hx]

theorem fdr_append_ws :
    ∀ (l t : List Char), (∀ c ∈ t, c.isWhitespace = true) →
      first_digit_run (l ++ t) = first_digit_run l := by
  intro l t ht
  induction l with
  | nil => simpa using fdr_all_ws t ht
  | cons c cs ih =>
    cases hc : c.isDigit with
    | true =>
      simp only [List.cons_append, first_digit_run, hc, if_true, List.append_eq]
      rw [takeWhile_digit_append t ht cs]
    | false =>
      simp only [List.cons_append, first_digit_run, hc, if_false]
      exact ih

theorem fdr_pyStripL (l : List Char) :
    first_digit_run (pyStripL l) = first_digit_run l := by
  unfold pyStripL
  rw [← fdr_dropWhile_ws l]
  generalize l.dropWhile Char.isWhitespace = a
  have hdecomp :
      (a.reverse.dropWhile Char.isWhitespace).reverse
          ++ (a.reverse.takeWhile Char.isWhitespace).reverse = a := by
    rw [← List.reverse_append, List.takeWhile_append_dropWhile, List.reverse_reverse]
  have hws : ∀ c ∈ (a.reverse.takeWhile Char.isWhitespace).reverse,
      c.isWhitespace = true := by
    intro c hc
    exact List.mem_takeWhile_imp (List.mem_reverse.mp hc)
  calc first_digit_run (a.reverse.dropWhile Char.isWhitespace).reverse
      = first_digit_run ((a.reverse.dropWhile Char.isWhitespace).reverse
          ++ (a.reverse.takeWhile Char.isWhitespace).reverse) :=
        (fdr_append_ws _ _ hws).symm
    _ = first_digit_run a := by rw [hdecomp]

theorem demanda_num_str_or_default (r : Row) (col : String) (d : List Char)
    (h : first_digit_run (py_get_str r col).data = some d) :
    demanda_num (str_or_default r col) = ⟨d⟩ := by
  cases hv : row_lookup r col with
  | none =>
    have hg : py_get_str r col = "" := by unfold py_get_str; rw [hv]
    rw [hg] at h
    simp [first_digit_run] at h
  | some o =>
    cases o with
    | none =>
      have hg : py_get_str r col = "nan" := by unfold py_get_str; rw [hv]
      rw [hg] at h
      have hn : first_digit_run "nan".data = none := by decide
      rw [hn] at h
      exact absurd h (by simp)
    | some v =>
      have hg : py_get_str r col = v := by unfold py_get_str; rw [hv]
      have hs : str_or_default r col = pyStrip v := by unfold str_or_default; rw [hv]
      rw [hg] at h
      rw [hs]
      unfold demanda_num
      have hps : (pyStrip v).data = pyStripL v.data := rfl
      rw [hps, fdr_pyStripL, h]

/-- **C10.** Row identity is not injective: two records whose `DEMANDA`
texts share the same first maximal digit run and whose `ARMADOR` cells
are equal get the same manual-selection key (so any selection list keeps
or drops them together) and the same output file name in the archive. -/
theorem C10_key_collision_spec (r1 r2 : Row) (d : List Char)
    (h1 : first_digit_run (py_get_str r1 "DEMANDA").data = some d)
    (h2 : first_digit_run (py_get_str r2 "DEMANDA").data = some d)
    (ha : row_lookup r1 "ARMADOR" = row_lookup r2 "ARMADOR") :
    _make_key r1 = _make_key r2 ∧
    pdf_fname r1 = pdf_fname r2 ∧
    ∀ sel : List String, sel.contains (_make_key r1) = sel.contains (_make_key r2) := by
  have hget : py_get_str r1 "ARMADOR" = py_get_str r2 "ARMADOR" := by
    unfold py_get_str; rw [ha]
  have hsod : str_or_default r1 "ARMADOR" = str_or_default r2 "ARMADOR" := by
    unfold str_or_default; rw [ha]
  have hk1 : demanda_num (py_get_str r1 "DEMANDA") = ⟨d⟩ := by
    unfold demanda_num; rw [h1]
  have hk2 : demanda_num (py_get_str r2 "DEMANDA") = ⟨d⟩ := by
    unfold demanda_num; rw [h2]
  have hkey : _make_key r1 = _make_key r2 := by
    unfold _make_key; rw [hk1, hk2, hget]
  refine ⟨hkey, ?_, fun sel => by rw [hkey]⟩
  unfold pdf_fname
  rw [demanda_num_str_or_default r1 "DEMANDA" d h1,
    demanda_num_str_or_default r2 "DEMANDA" d h2, hsod]

/-- Witness for C10 at two distinct concrete records sharing the digit
run `123` and the carrier `MAERSK`. -/
theorem C10_witness :
    _make_key exRowA = _make_key exRowB ∧ pdf_fname exRowA = pdf_fname exRowB :=
  ⟨(C10_key_collision_spec exRowA exRowB ['1', '2', '3']
      (by decide) (by decide) (by decide)).1,
   (C10_key_collision_spec exRowA exRowB ['1', '2', '3']
      (by decide) (by decide) (by decide)).2.1⟩

end Rom
